import Mathlib

set_option maxRecDepth 4000
set_option linter.unusedVariables false

/-!
Shallow embedding of the VizSNP-St annotation pipeline (`src/vizsnp.js`).

The pipeline's pure computational core is translated into executable Lean
definitions.  Network calls (the structure-mapping service, the VEP
consequence service, the uniprot id-mapping poll loop) are represented by
explicit function parameters or by traces of responses, so the control flow
around them can be verified.  JavaScript-specific semantics that the code
relies on (truthiness of strings, `Array.prototype.join` rendering
`undefined` as the empty string, template literals rendering `undefined` as
the string "undefined", `String.prototype.replace` replacing only the first
occurrence of a plain-string pattern) are modelled explicitly.
-/

namespace VizSNP

/-- JavaScript truthiness of a possibly-absent string: `undefined`/`null` and
the empty string are falsy, every other string is truthy. -/
def truthyOptStr : Option String → Bool
  | none => false
  | some s => s != ""

/-- JavaScript template-literal rendering of a possibly-absent string:
`undefined` renders as the literal text "undefined". -/
def jsTemplate : Option String → String
  | none => "undefined"
  | some s => s

/-- Drops `pat` from the front of `l` when `pat` is a prefix of `l`,
returning the remainder. -/
def dropPrefixChars : List Char → List Char → Option (List Char)
  | [], l => some l
  | _ :: _, [] => none
  | p :: ps, c :: cs => if p = c then dropPrefixChars ps cs else none

/-- Splitting a character list on a nonempty separator, accumulating the
current piece in reverse.  `fuel` bounds the recursion so the definition is
structural (and hence kernel-computable); every step consumes at least one
character, so `fuel := l.length` is always enough and the fuel-exhausted
equation is unreachable. -/
def splitCharsAux (sep : List Char) : Nat → List Char → List Char → List (List Char)
  | _, [], acc => [acc.reverse]
  | 0, l, acc => [acc.reverse ++ l]
  | fuel + 1, c :: cs, acc =>
    match dropPrefixChars sep (c :: cs) with
    | some rest => acc.reverse :: splitCharsAux sep fuel rest []
    | none => splitCharsAux sep fuel cs (c :: acc)

/-- JavaScript `s.split(sep)` for a plain-string separator: the pieces of `s`
between non-overlapping occurrences of `sep`, scanned left to right; a string
without an occurrence of `sep` splits into the one-element list `[s]`, and
the empty separator splits `s` into its characters. -/
def jsSplit (sep : String) (s : String) : List String :=
  match sep.data with
  | [] => s.data.map (fun c => String.mk [c])
  | p :: ps => (splitCharsAux (p :: ps) s.data.length s.data []).map String.mk

/-- JavaScript `s.replace(pat, "")` for a plain-string pattern: removes the
first occurrence of `pat` from `s` (not only a leading one, and not all
occurrences). -/
def replaceFirst (pat s : String) : String :=
  match jsSplit pat s with
  | [] => s
  | x :: rest => x ++ String.intercalate pat rest

/-- One row of the VCF file as produced by the `@gmod/vcf` parser: the fields
`parseVariant` destructures.  `ID` and `ALT` are arrays that may be absent,
`CHROM` and `REF` are strings that may be absent. -/
structure VcfVariant where
  CHROM : Option String
  POS : Nat
  ID : Option (List String)
  REF : Option String
  ALT : Option (List String)
deriving Repr, DecidableEq, Inhabited

/-- Embedding of `parseVariant` (vizsnp.js): formats a variant as the
six-field space-separated Ensembl VEP region query line.  The first `chr`
occurrence is removed from a truthy `CHROM`, a present `ID` array contributes
its first element, `ALT` is comma-joined, and absent fields render as ".". -/
def parseVariant (variant : VcfVariant) : String :=
  let CHROM := variant.CHROM.map (fun c => if c = "" then c else replaceFirst "chr" c)
  let ID := variant.ID.bind (fun l => l.get? 0)
  let ALT := variant.ALT.map (String.intercalate ",")
  String.intercalate " "
    [CHROM.getD ".", toString variant.POS, ID.getD ".", variant.REF.getD ".", ALT.getD ".", "."]

/-- Strips a leading "chr" from a string, leaving any other string (including
one with a non-leading "chr" occurrence) unchanged. -/
def stripLeadingChr (c : String) : String :=
  match dropPrefixChars "chr".data c.data with
  | some rest => String.mk rest
  | none => c

/-- Modelled from the spec: the query-line formatter as the specification
words it, with only a LEADING "chr" contig prefix stripped from the
reference-sequence name (spec sections 3 and 8).  Used to compare the claimed
behaviour with the implemented `parseVariant`. -/
def specQueryLine (variant : VcfVariant) : String :=
  let CHROM := variant.CHROM.map stripLeadingChr
  let ID := variant.ID.bind (fun l => l.get? 0)
  let ALT := variant.ALT.map (String.intercalate ",")
  String.intercalate " "
    [CHROM.getD ".", toString variant.POS, ID.getD ".", variant.REF.getD ".", ALT.getD ".", "."]

/-- Fuel-bounded worker for `chunk`: takes a slice of `chunkSize` and recurses
on the remainder, with `fuel` making the recursion structural. -/
def chunkAux (chunkSize : Nat) : Nat → List α → List (List α)
  | _, [] => []
  | 0, l => [l]
  | fuel + 1, a :: rest =>
    (a :: rest).take chunkSize :: chunkAux chunkSize fuel ((a :: rest).drop chunkSize)

/-- Embedding of `chunk` (vizsnp.js): splits a list into slices of
`chunkSize`, in order.  The JavaScript generator loops `i += chunkSize`
starting at 0 while `i < array.length`; for `chunkSize ≥ 1` each slice
consumes at least one element, so recursion on `array.length` as fuel is
faithful (for `chunkSize = 0` the JavaScript loop never terminates, so no
finite value models it; all theorems about `chunk` assume `1 ≤ chunkSize`). -/
def chunk (chunkSize : Nat) (array : List α) : List (List α) :=
  chunkAux chunkSize array.length array

/-- The line filter of `readVcfFile`: `!filter || line.includes(filter)`.
`none` models a null filter; the empty string is falsy in JavaScript so it
also disables filtering; otherwise the filter must occur as a substring of
the raw line (witnessed by `splitOn` producing more than one piece). -/
def filterOk : Option String → String → Bool
  | none, _ => true
  | some f, line => f == "" || (jsSplit f line).length != 1

/-- The `getLines` callback of `readVcfFile` folded over the lines streamed
for one reference sequence: a line is parsed and appended only while the
accumulated output is still below `limit` and the filter accepts the raw
line. -/
def readVcfLines (parseLn : String → V) (limit : Nat) (filter : Option String) :
    List V → List String → List V
  | vars, [] => vars
  | vars, line :: rest =>
    readVcfLines parseLn limit filter
      (if vars.length < limit && filterOk filter line then vars ++ [parseLn line] else vars)
      rest

/-- The loop of `readVcfFile` over the reference sequences, threading the
variant accumulator and the trace of issued `getLines` calls. -/
def readVcfGo (parseLn : String → V) (linesFor : String → List String)
    (limit : Nat) (filter : Option String) :
    List String → List V × List String → List V × List String
  | [], acc => acc
  | refName :: rest, acc =>
    readVcfGo parseLn linesFor limit filter rest
      (readVcfLines parseLn limit filter acc.1 (linesFor refName), acc.2 ++ [refName])

/-- Embedding of `readVcfFile` (vizsnp.js).  `refNames` is the ordered list of
reference sequences declared by the header's contig metadata, and
`linesFor r` is the sequence of raw lines the tabix index streams for
reference sequence `r`.  The first component is the collected variants; the
second component is the trace of reference sequences for which a `getLines`
block-lookup call was issued, in order.  The source loops over every
reference sequence unconditionally; only the append inside the callback is
guarded by `limit`. -/
def readVcfFile (parseLn : String → V) (linesFor : String → List String)
    (refNames : List String) (limit : Nat) (filter : Option String) :
    List V × List String :=
  readVcfGo parseLn linesFor limit filter refNames ([], [])

/-- Embedding of the poll loop of `getProteinIds` (vizsnp.js): after the job
is submitted, the code repeatedly fetches `/status/{jobId}`, and whenever the
parsed status has no truthy `results` field it sleeps 1000 ms and polls
again; it returns the `results` field of the first status that has one.
`responses` is the trace of `results` fields returned by the successive
status polls (`none` models null), and `slept` accumulates the total
milliseconds spent sleeping.  An exhausted trace (`[]`) models a loop that is
still running: the code has no built-in timeout. -/
def pollLoop : List (Option R) → Nat → Option (R × Nat)
  | [], _ => none
  | some r :: _, slept => some (r, slept)
  | none :: rest, slept => pollLoop rest (slept + 1000)

/-- One transcript-level consequence of a variant as returned by the VEP
service: the fields `processVariantConsequences` reads.  Fields a JSON object
may simply lack are `Option`s; score fields are carried through verbatim and
are kept as raw strings since the pipeline never computes with them. -/
structure TranscriptConsequence where
  gene_id : String
  swissprot : Option (List String)
  amino_acids : Option String
  protein_start : Nat
  sift_prediction : Option String
  sift_score : Option String
  polyphen_prediction : Option String
  polyphen_score : Option String
deriving Repr, DecidableEq, Inhabited

/-- One element of the VEP response: the original input line plus its
transcript consequences (possibly absent). -/
structure VepResult where
  input : String
  transcript_consequences : Option (List TranscriptConsequence)
deriving Repr, DecidableEq, Inhabited

/-- One candidate structure from the best-structures service: the two fields
the pipeline reads. -/
structure PdbStructure where
  pdb_id : String
  chain_id : String
deriving Repr, DecidableEq, Inhabited

/-- The record assembled by `processVariantConsequences` for one variant. -/
structure AnnotatedVariant where
  variant : String
  geneId : String
  uniprotId : String
  pdbId : Option String
  aminoAcids : List String
  aminoAcidMutation : String
  aminoAcidMutationPosition : Nat
  siftPrediction : Option String
  siftScore : Option String
  polyphenPrediction : Option String
  polyphenScore : Option String
  icn3dPdb : Option String
  icn3dAlphafold : Option String
  pdbStructures : Option (List PdbStructure)
  consequence : TranscriptConsequence
deriving Repr, DecidableEq, Inhabited

/-- The transcript-selection of `processVariantConsequences`:
`result?.transcript_consequences?.find((c) => (c.sift_prediction || c.polyphen_prediction) && c.swissprot?.length)` —
the first consequence with a truthy prediction from either predictor and a
present, nonempty swissprot accession list. -/
def findEligible (result : VepResult) : Option TranscriptConsequence :=
  (result.transcript_consequences.getD []).find? (fun c =>
    (truthyOptStr c.sift_prediction || truthyOptStr c.polyphen_prediction)
      && (c.swissprot.getD []).length != 0)

/-- The date components `getIcn3d*Url` reads off `new Date()`: `getFullYear`,
the 0-based `getMonth`, and `getDate`. -/
structure JsDate where
  fullYear : Nat
  monthIndex : Nat
  dayOfMonth : Nat
deriving Repr, DecidableEq, Inhabited

/-- Hexadecimal digit characters as produced by percent-encoding (uppercase,
as `encodeURIComponent` emits). -/
def hexDigitChar (n : Nat) : Char :=
  if n < 10 then Char.ofNat (48 + n) else Char.ofNat (55 + n)

/-- Percent-encoding of one byte: a percent sign followed by two uppercase
hexadecimal digits. -/
def percentEncodeByte (b : Nat) : List Char :=
  [Char.ofNat 37, hexDigitChar (b / 16), hexDigitChar (b % 16)]

/-- The UTF-8 bytes of one character (by code point), as `encodeURIComponent`
encodes characters outside its unreserved set. -/
def utf8BytesOfChar (c : Char) : List Nat :=
  let n := c.toNat
  if n < 128 then [n]
  else if n < 2048 then [192 + n / 64, 128 + n % 64]
  else if n < 65536 then [224 + n / 4096, 128 + (n / 64) % 64, 128 + n % 64]
  else [240 + n / 262144, 128 + (n / 4096) % 64, 128 + (n / 64) % 64, 128 + n % 64]

/-- The characters `encodeURIComponent` leaves unescaped: alphanumerics and
`- _ . ! ~ * ' ( )`. -/
def uriUnreserved (c : Char) : Bool :=
  c.isAlphanum ||
    c ∈ ['-', '_', '.', '!', '~', '*', Char.ofNat 39, '(', ')']

/-- JavaScript's `encodeURIComponent`: unreserved characters pass through,
every other character is replaced by the percent-encoding of its UTF-8
bytes. -/
def encodeURIComponent (s : String) : String :=
  String.mk (List.flatten (s.data.map (fun c =>
    if uriUnreserved c then [c]
    else List.flatten ((utf8BytesOfChar c).map percentEncodeByte))))

/-- Embedding of `encodeUrl` (vizsnp.js): renders an ordered list of
key/value entries as `k=v` pairs joined by `&`.  A JavaScript array value is
comma-joined; a scalar value is modelled as a one-element list (the source
wraps scalars as `[v]` before joining).  With `encode` set, keys and each
value element go through `encodeURIComponent`. -/
def encodeUrl (pairs : List (String × List String)) (encode : Bool) : String :=
  String.intercalate "&" (pairs.map (fun kv =>
    (if encode then encodeURIComponent kv.1 else kv.1) ++ "=" ++
      String.intercalate "," (kv.2.map (fun v => if encode then encodeURIComponent v else v))))

/-- Embedding of `getIcn3dAlphafoldUrl` (vizsnp.js): the ICN3D viewer URL for
the AlphaFold structure keyed by the record's protein accession.  The
`aminoAcids[1]` template holes render a missing element as "undefined",
mirroring JavaScript template literals. -/
def getIcn3dAlphafoldUrl (date : JsDate) (result : AnnotatedVariant) : String :=
  let url := "https://www.ncbi.nlm.nih.gov/Structure/icn3d/full.html"
  let dateStr :=
    String.intercalate ""
      [toString date.fullYear, toString (date.monthIndex + 1), toString date.dayOfMonth]
  let pos := toString result.aminoAcidMutationPosition
  let aa1 := jsTemplate (result.aminoAcids.get? 1)
  let params : List (String × List String) :=
    [("afid", [result.uniprotId]),
     ("date", [dateStr]),
     ("v", ["3.12.7"]),
     ("command", [String.intercalate "; "
       ["view annotations",
        "set annotation cdd",
        "set view detailed view",
        "set thickness | stickrad 0.2",
        "add track | chainid " ++ result.uniprotId ++ "_A | title SIFT_predict | text "
          ++ pos ++ " " ++ aa1,
        "add track | chainid " ++ result.uniprotId ++ "_A | title Polyphen_predict | text "
          ++ pos ++ " " ++ aa1,
        "scap interaction " ++ result.uniprotId ++ "_A_" ++ pos ++ "_" ++ aa1]])]
  url ++ "?" ++ encodeUrl params true

/-- Embedding of `getIcn3dPdbUrl` (vizsnp.js): the ICN3D viewer URL for the
selected PDB structure.  `offset` is the source's literal `0` placeholder.
The `pdbId` template holes render a null id as "null", mirroring JavaScript
template literals (unreachable in the pipeline, which only calls this when
`pdbId` is truthy). -/
def getIcn3dPdbUrl (date : JsDate) (result : AnnotatedVariant) : String :=
  let url := "https://www.ncbi.nlm.nih.gov/Structure/icn3d/full.html"
  let dateStr :=
    String.intercalate ""
      [toString date.fullYear, toString (date.monthIndex + 1), toString date.dayOfMonth]
  let offset := 0
  let pdbIdStr := result.pdbId.getD "null"
  let pos := toString (result.aminoAcidMutationPosition + offset)
  let aa1 := jsTemplate (result.aminoAcids.get? 1)
  let params : List (String × List String) :=
    [("pdbid", [pdbIdStr]),
     ("date", [dateStr]),
     ("v", ["3.12.7"]),
     ("command", [String.intercalate "; "
       ["view annotations",
        "set annotation cdd",
        "set view detailed view",
        "set thickness | stickrad 0.2",
        "add track | chainid " ++ pdbIdStr ++ " | title SIFT_predict | text "
          ++ pos ++ " " ++ aa1,
        "add track | chainid " ++ pdbIdStr ++ " | title Polyphen_predict | text "
          ++ pos ++ " " ++ aa1,
        "scap interaction " ++ pdbIdStr ++ "_" ++ pos ++ "_" ++ aa1]])]
  url ++ "?" ++ encodeUrl params true

/-- The first loop body of `processVariantConsequences` for one VEP result:
select the first eligible transcript consequence (none → the result is
skipped), then build the record.  Accessing `.split` on an absent
`amino_acids` throws a TypeError in JavaScript, which aborts the whole call;
that is modelled by `Except.error`.  `pdbId`, `icn3dPdb`, `icn3dAlphafold`
start as null and `pdbStructures` is not yet attached. -/
def assembleOne (result : VepResult) : Except String (Option AnnotatedVariant) :=
  match findEligible result with
  | none => .ok none
  | some consequence =>
    match consequence.amino_acids with
    | none => .error "TypeError: Cannot read properties of undefined (reading 'split')"
    | some aaStr =>
      let uniprotId := (jsSplit "." ((consequence.swissprot.getD []).headD "")).headD ""
      let aminoAcids := jsSplit "/" aaStr
      let aminoAcidMutation :=
        String.intercalate ""
          [(aminoAcids.get? 0).getD "", toString consequence.protein_start,
           (aminoAcids.get? 1).getD ""]
      .ok (some
        { variant := result.input
          geneId := consequence.gene_id
          uniprotId := uniprotId
          pdbId := none
          aminoAcids := aminoAcids
          aminoAcidMutation := aminoAcidMutation
          aminoAcidMutationPosition := consequence.protein_start
          siftPrediction := consequence.sift_prediction
          siftScore := consequence.sift_score
          polyphenPrediction := consequence.polyphen_prediction
          polyphenScore := consequence.polyphen_score
          icn3dPdb := none
          icn3dAlphafold := none
          pdbStructures := none
          consequence := consequence })

/-- The first loop of `processVariantConsequences` over the whole VEP
response: collects the assembled records in order; a thrown TypeError aborts
the whole call. -/
def assembleRecords : List VepResult → Except String (List AnnotatedVariant)
  | [] => .ok []
  | r :: rest => do
    let head ← assembleOne r
    let tail ← assembleRecords rest
    match head with
    | none => pure tail
    | some a => pure (a :: tail)

/-- The second loop body of `processVariantConsequences` for one record:
look the record's accession up in the best-structures mapping.  An absent (or
null) entry skips the record; a present entry always selects the candidate
at index 0 and composes `{pdb_id}_{chain_id}`.  In JavaScript an empty
candidate array is truthy, so index 0 is `undefined` and reading `.pdb_id`
throws; that is modelled by `Except.error`. -/
def attachStructure (bestStructures : String → Option (List PdbStructure))
    (result : AnnotatedVariant) : Except String AnnotatedVariant :=
  match bestStructures result.uniprotId with
  | none => .ok result
  | some [] => .error "TypeError: Cannot read properties of undefined (reading 'pdb_id')"
  | some (s :: rest) =>
    .ok { result with
          pdbId := some (String.intercalate "_" [s.pdb_id, s.chain_id])
          pdbStructures := some (s :: rest) }

/-- The second loop of `processVariantConsequences` over all records. -/
def attachAll (bestStructures : String → Option (List PdbStructure)) :
    List AnnotatedVariant → Except String (List AnnotatedVariant)
  | [] => .ok []
  | a :: rest => do
    let a' ← attachStructure bestStructures a
    let rest' ← attachAll bestStructures rest
    pure (a' :: rest')

/-- Whether the third loop of `processVariantConsequences` computes
visualization commands for a record: it `continue`s unless
`siftPrediction === "deleterious"` or
`polyphenPrediction === "probably_damaging"`. -/
def highImpact (result : AnnotatedVariant) : Bool :=
  result.siftPrediction == some "deleterious"
    || result.polyphenPrediction == some "probably_damaging"

/-- The third loop body of `processVariantConsequences` for one record: for a
high-impact record, set `icn3dPdb` when `pdbId` is truthy, then always set
`icn3dAlphafold`; any other record is left unchanged. -/
def addCommands (date : JsDate) (result : AnnotatedVariant) : AnnotatedVariant :=
  if highImpact result then
    let withPdb :=
      if truthyOptStr result.pdbId then
        { result with icn3dPdb := some (getIcn3dPdbUrl date result) }
      else result
    { withPdb with icn3dAlphafold := some (getIcn3dAlphafoldUrl date withPdb) }
  else result

/-- Embedding of `processVariantConsequences` (vizsnp.js).  `svc` stands for
the remote `getBestStructures` service: it receives the posted accession list
and yields the returned accession-to-candidates mapping (`none` models an
absent key).  The second component of the result is the trace of accession
lists posted to the service — the source issues exactly one such call per
invocation, with `results.map((r) => r.uniprotId)` as its argument. -/
def processVariantConsequences
    (svc : List String → String → Option (List PdbStructure)) (date : JsDate)
    (data : List VepResult) :
    Except String (List AnnotatedVariant × List (List String)) := do
  let results ← assembleRecords data
  let accessions := results.map (·.uniprotId)
  let bestStructures := svc accessions
  let attached ← attachAll bestStructures results
  pure (attached.map (addCommands date), [accessions])

/-- The records of a `processVariantConsequences` run, with an erroring run
yielding the empty list (used to state concrete evaluations). -/
def pvcRecordsOf (svc : List String → String → Option (List PdbStructure))
    (date : JsDate) (data : List VepResult) : List AnnotatedVariant :=
  ((processVariantConsequences svc date data).toOption.getD ([], [])).1

/-- The trace of accession lists posted to the best-structures service during
a `processVariantConsequences` run, with an erroring run yielding the empty
trace (used to state concrete evaluations). -/
def pvcCallsOf (svc : List String → String → Option (List PdbStructure))
    (date : JsDate) (data : List VepResult) : List (List String) :=
  ((processVariantConsequences svc date data).toOption.getD ([], [])).2

/-- Modelled from the spec (section 4.5, step 3): a well-formed record splits
the `"X/Y"` amino-acid-change string into exactly two parts. -/
def wellFormedAminoChange (a : AnnotatedVariant) : Bool :=
  a.aminoAcids.length == 2

/-- The eligible consequence of scenario variant B in the spec's end-to-end
scenario: amino_acids "A/V", protein_start 42, sift "deleterious", swissprot
["P12345.2"]. -/
def consB : TranscriptConsequence :=
  { gene_id := "ENSG00000001"
    swissprot := some ["P12345.2"]
    amino_acids := some "A/V"
    protein_start := 42
    sift_prediction := some "deleterious"
    sift_score := some "0.01"
    polyphen_prediction := none
    polyphen_score := none }

/-- The consequence of scenario variant C: identical to B except
sift "tolerated" and polyphen "benign". -/
def consC : TranscriptConsequence :=
  { consB with
    sift_prediction := some "tolerated"
    sift_score := some "0.8"
    polyphen_prediction := some "benign"
    polyphen_score := some "0.1" }

/-- A consequence whose amino-acid-change string lacks the "/" separator. -/
def consNoSlash : TranscriptConsequence :=
  { consC with amino_acids := some "AV" }

/-- Scenario variant A: no transcript consequences. -/
def varA : VepResult := { input := "varA", transcript_consequences := none }

/-- Scenario variant B. -/
def varB : VepResult := { input := "varB", transcript_consequences := some [consB] }

/-- Scenario variant C. -/
def varC : VepResult := { input := "varC", transcript_consequences := some [consC] }

/-- A second variant carrying the same accession as C (for the deduplication
counterexample). -/
def varC2 : VepResult := { input := "varC2", transcript_consequences := some [consC] }

/-- A variant whose only consequence has an amino-acid string without "/". -/
def varNoSlash : VepResult :=
  { input := "varNoSlash", transcript_consequences := some [consNoSlash] }

/-- A best-structures service stub mapping P12345 to a single candidate. -/
def svcOne : List String → String → Option (List PdbStructure) := fun _ acc =>
  if acc = "P12345" then some [{ pdb_id := "1abc", chain_id := "A" }] else none

/-- A best-structures service stub with an empty mapping. -/
def svcEmpty : List String → String → Option (List PdbStructure) := fun _ _ => none

/-- First candidate of the two-candidate service stub. -/
def cand0 : PdbStructure := { pdb_id := "1abc", chain_id := "A" }

/-- Second candidate of the two-candidate service stub. -/
def cand1 : PdbStructure := { pdb_id := "2xyz", chain_id := "B" }

/-- A best-structures service stub mapping P12345 to two tied candidates. -/
def svcTwo : List String → String → Option (List PdbStructure) := fun _ acc =>
  if acc = "P12345" then some [cand0, cand1] else none

/-- An accession-to-candidates mapping that is empty (for batch-insensitive
service stubs). -/
def mapNone : String → Option (List PdbStructure) := fun _ => none

/-- A fixed date for concrete evaluations. -/
def dateW : JsDate := { fullYear := 2023, monthIndex := 0, dayOfMonth := 5 }

/-! ### Helper lemmas about the Batcher -/

theorem chunkAux_ne_nil (size : Nat) (fuel : Nat) (a : α) (l : List α) :
    chunkAux size fuel (a :: l) ≠ [] := by
  cases fuel <;> simp [chunkAux]

theorem chunkAux_flatten (size : Nat) (hsz : 1 ≤ size) :
    ∀ (fuel : Nat) (l : List α), l.length ≤ fuel → (chunkAux size fuel l).flatten = l
  | fuel, [], _ => by cases fuel <;> simp [chunkAux]
  | 0, a :: rest, h => by simp at h
  | fuel + 1, a :: rest, h => by
    have hlen : ((a :: rest).drop size).length ≤ fuel := by
      simp only [List.length_drop, List.length_cons]
      simp only [List.length_cons] at h
      omega
    simp only [chunkAux, List.flatten_cons,
      chunkAux_flatten size hsz fuel ((a :: rest).drop size) hlen]
    exact List.take_append_drop size (a :: rest)

theorem chunkAux_mem_length (size : Nat) (hsz : 1 ≤ size) :
    ∀ (fuel : Nat) (l : List α), l.length ≤ fuel →
      ∀ b ∈ chunkAux size fuel l, 1 ≤ b.length ∧ b.length ≤ size
  | fuel, [], _ => by cases fuel <;> simp [chunkAux]
  | 0, a :: rest, h => by simp at h
  | fuel + 1, a :: rest, h => by
    have hlen : ((a :: rest).drop size).length ≤ fuel := by
      simp only [List.length_drop, List.length_cons]
      simp only [List.length_cons] at h
      omega
    intro b hb
    simp only [chunkAux, List.mem_cons] at hb
    rcases hb with hb | hb
    · subst hb
      constructor
      · simp only [List.length_take, List.length_cons]
        omega
      · simp only [List.length_take]
        omega
    · exact chunkAux_mem_length size hsz fuel ((a :: rest).drop size) hlen b hb

theorem chunkAux_dropLast_length (size : Nat) (hsz : 1 ≤ size) :
    ∀ (fuel : Nat) (l : List α), l.length ≤ fuel →
      ∀ b ∈ (chunkAux size fuel l).dropLast, b.length = size
  | fuel, [], _ => by cases fuel <;> simp [chunkAux]
  | 0, a :: rest, h => by simp at h
  | fuel + 1, a :: rest, h => by
    have hlen : ((a :: rest).drop size).length ≤ fuel := by
      simp only [List.length_drop, List.length_cons]
      simp only [List.length_cons] at h
      omega
    intro b hb
    simp only [chunkAux] at hb
    rcases hdrop : (a :: rest).drop size with _ | ⟨d, ds⟩
    · rw [hdrop] at hb
      have : chunkAux size fuel ([] : List α) = [] := by cases fuel <;> simp [chunkAux]
      rw [this] at hb
      simp at hb
    · rw [hdrop] at hb
      rw [List.dropLast_cons_of_ne_nil (chunkAux_ne_nil size fuel d ds)] at hb
      simp only [List.mem_cons] at hb
      rcases hb with hb | hb
      · subst hb
        have hlt : size < (a :: rest).length := by
          by_contra hge
          push_neg at hge
          have : (a :: rest).drop size = [] := List.drop_eq_nil_of_le hge
          rw [this] at hdrop
          cases hdrop
        simp only [List.length_take]
        omega
      · exact chunkAux_dropLast_length size hsz fuel ((a :: rest).drop size) hlen b
          (by rw [hdrop]; exact hb)

/-! ### Helper lemmas about the Indexed Variant Reader -/

theorem readVcfLines_length_le (parseLn : String → V) (limit : Nat) (filter : Option String) :
    ∀ (lines : List String) (vars : List V), vars.length ≤ limit →
      (readVcfLines parseLn limit filter vars lines).length ≤ limit
  | [], vars, h => h
  | line :: rest, vars, h => by
    rw [readVcfLines]
    apply readVcfLines_length_le parseLn limit filter rest
    split
    · rename_i hc
      rw [Bool.and_eq_true] at hc
      have hlt : vars.length < limit := by
        have := hc.1
        simpa using this
      simp only [List.length_append, List.length_singleton]
      omega
    · exact h

theorem readVcfGo_length_le (parseLn : String → V) (linesFor : String → List String)
    (limit : Nat) (filter : Option String) :
    ∀ (refNames : List String) (acc : List V × List String), acc.1.length ≤ limit →
      (readVcfGo parseLn linesFor limit filter refNames acc).1.length ≤ limit
  | [], acc, h => h
  | refName :: rest, acc, h => by
    rw [readVcfGo]
    exact readVcfGo_length_le parseLn linesFor limit filter rest _
      (readVcfLines_length_le parseLn limit filter (linesFor refName) acc.1 h)

theorem readVcfGo_trace (parseLn : String → V) (linesFor : String → List String)
    (limit : Nat) (filter : Option String) :
    ∀ (refNames : List String) (acc : List V × List String),
      (readVcfGo parseLn linesFor limit filter refNames acc).2 = acc.2 ++ refNames
  | [], acc => by simp [readVcfGo]
  | refName :: rest, acc => by
    rw [readVcfGo, readVcfGo_trace parseLn linesFor limit filter rest]
    simp

/-! ### Helper lemmas about the poll loop -/

theorem pollLoop_sound {R : Type} :
    ∀ (responses : List (Option R)) (slept : Nat) (r : R) (t : Nat),
      pollLoop responses slept = some (r, t) →
      ∃ k, responses.get? k = some (some r) ∧ (∀ j < k, responses.get? j = some none)
        ∧ t = slept + 1000 * k
  | [], slept, r, t, h => by cases h
  | some x :: rest, slept, r, t, h => by
    rw [pollLoop] at h
    injection h with h
    injection h with h1 h2
    refine ⟨0, ?_, ?_, ?_⟩
    · simp [h1]
    · intro j hj
      omega
    · omega
  | none :: rest, slept, r, t, h => by
    rw [pollLoop] at h
    obtain ⟨k, hk, hbefore, ht⟩ := pollLoop_sound rest (slept + 1000) r t h
    refine ⟨k + 1, by simpa using hk, ?_, by omega⟩
    intro j hj
    cases j with
    | zero => simp
    | succ j => simpa using hbefore j (by omega)

theorem pollLoop_complete {R : Type} :
    ∀ (responses : List (Option R)) (slept k : Nat) (r : R),
      responses.get? k = some (some r) → (∀ j < k, responses.get? j = some none) →
      pollLoop responses slept = some (r, slept + 1000 * k)
  | [], slept, k, r, hk, _ => by simp at hk
  | x :: rest, slept, 0, r, hk, _ => by
    simp at hk
    rw [hk, pollLoop]
    simp
  | x :: rest, slept, k + 1, r, hk, hbefore => by
    have hx : x = none := by
      have := hbefore 0 (by omega)
      simpa using this
    subst hx
    rw [pollLoop]
    have := pollLoop_complete rest (slept + 1000) k r (by simpa using hk)
      (fun j hj => by simpa using hbefore (j + 1) (by omega))
    rw [this]
    have : slept + 1000 + 1000 * k = slept + 1000 * (k + 1) := by ring
    rw [this]

theorem pollLoop_all_null {R : Type} :
    ∀ (responses : List (Option R)) (slept : Nat),
      (∀ x ∈ responses, x = none) → pollLoop responses slept = none
  | [], _, _ => rfl
  | x :: rest, slept, h => by
    have hx : x = none := h x (by simp)
    subst hx
    rw [pollLoop]
    exact pollLoop_all_null rest (slept + 1000) (fun y hy => h y (by simp [hy]))

/-! ### Helper lemmas about strings and the viewer URLs -/

theorem append_mid_ne_empty (a m b : String) (hm : m ≠ "") : a ++ m ++ b ≠ "" := by
  obtain ⟨la⟩ := a
  obtain ⟨lm⟩ := m
  obtain ⟨lb⟩ := b
  intro h
  apply hm
  have hdata : la ++ lm ++ lb = ([] : List Char) := congrArg String.data h
  have hlm : lm = [] := by
    have h1 := List.append_eq_nil.mp hdata
    exact (List.append_eq_nil.mp h1.1).2
  rw [hlm]

theorem getIcn3dAlphafoldUrl_ne_empty (date : JsDate) (result : AnnotatedVariant) :
    getIcn3dAlphafoldUrl date result ≠ "" :=
  append_mid_ne_empty _ "?" _ (by decide)

theorem getIcn3dPdbUrl_ne_empty (date : JsDate) (result : AnnotatedVariant) :
    getIcn3dPdbUrl date result ≠ "" :=
  append_mid_ne_empty _ "?" _ (by decide)

theorem joined_pdbId_ne_empty (x y : String) : String.intercalate "_" [x, y] ≠ "" := by
  have hshape : String.intercalate "_" [x, y] = x ++ "_" ++ y := rfl
  rw [hshape]
  exact append_mid_ne_empty x "_" y (by decide)

/-! ### Helper lemmas about the Record Assembler -/

theorem pvc_ok_elim (svc : List String → String → Option (List PdbStructure))
    (date : JsDate) (data : List VepResult) (recs : List AnnotatedVariant)
    (calls : List (List String))
    (h : processVariantConsequences svc date data = .ok (recs, calls)) :
    ∃ results attached,
      assembleRecords data = .ok results
      ∧ attachAll (svc (results.map (·.uniprotId))) results = .ok attached
      ∧ recs = attached.map (addCommands date)
      ∧ calls = [results.map (·.uniprotId)] := by
  unfold processVariantConsequences at h
  cases hres : assembleRecords data with
  | error e =>
    simp only [hres, Bind.bind, Except.bind] at h
    exact Except.noConfusion h
  | ok results =>
    simp only [hres, Bind.bind, Except.bind] at h
    cases hatt : attachAll (svc (results.map (·.uniprotId))) results with
    | error e =>
      simp only [hatt] at h
      exact Except.noConfusion h
    | ok attached =>
      simp only [hatt, pure, Except.pure] at h
      injection h with h
      injection h with h1 h2
      exact ⟨results, attached, rfl, hatt, h1.symm, h2.symm⟩

theorem assembleOne_some_fields (r : VepResult) (a : AnnotatedVariant)
    (h : assembleOne r = .ok (some a)) :
    a.pdbId = none ∧ a.icn3dPdb = none ∧ a.icn3dAlphafold = none := by
  unfold assembleOne at h
  cases hf : findEligible r with
  | none => simp only [hf] at h; simp at h
  | some c =>
    simp only [hf] at h
    cases hc : c.amino_acids with
    | none => simp only [hc] at h; simp at h
    | some aa =>
      simp only [hc] at h
      injection h with h
      injection h with h
      subst h
      exact ⟨rfl, rfl, rfl⟩

theorem assembleRecords_mem :
    ∀ (data : List VepResult) (l : List AnnotatedVariant),
      assembleRecords data = .ok l →
      ∀ a ∈ l, ∃ r ∈ data, assembleOne r = .ok (some a)
  | [], l, h => by
    injection h with h
    subst h
    intro a ha
    simp at ha
  | r :: rest, l, h => by
    rw [assembleRecords] at h
    cases hone : assembleOne r with
    | error e =>
      simp only [hone, Bind.bind, Except.bind] at h
      exact Except.noConfusion h
    | ok head =>
      simp only [hone, Bind.bind, Except.bind] at h
      cases htail : assembleRecords rest with
      | error e =>
        simp only [htail] at h
        exact Except.noConfusion h
      | ok tail =>
        simp only [htail] at h
        have ih := assembleRecords_mem rest tail htail
        cases head with
        | none =>
          simp only [pure, Except.pure] at h
          injection h with h
          subst h
          intro a ha
          obtain ⟨r', hr', h'⟩ := ih a ha
          exact ⟨r', by simp [hr'], h'⟩
        | some a0 =>
          simp only [pure, Except.pure] at h
          injection h with h
          subst h
          intro a ha
          rcases List.mem_cons.mp ha with ha | ha
          · subst ha
            exact ⟨r, by simp, hone⟩
          · obtain ⟨r', hr', h'⟩ := ih a ha
            exact ⟨r', by simp [hr'], h'⟩

theorem assembleRecords_append :
    ∀ (xs ys : List VepResult) (lx ly : List AnnotatedVariant),
      assembleRecords xs = .ok lx → assembleRecords ys = .ok ly →
      assembleRecords (xs ++ ys) = .ok (lx ++ ly)
  | [], ys, lx, ly, hx, hy => by
    injection hx with hx
    subst hx
    simpa using hy
  | r :: rest, ys, lx, ly, hx, hy => by
    rw [assembleRecords] at hx
    cases hone : assembleOne r with
    | error e =>
      simp only [hone, Bind.bind, Except.bind] at hx
      exact Except.noConfusion hx
    | ok head =>
      simp only [hone, Bind.bind, Except.bind] at hx
      cases htail : assembleRecords rest with
      | error e =>
        simp only [htail] at hx
        exact Except.noConfusion hx
      | ok tail =>
        simp only [htail] at hx
        have ih := assembleRecords_append rest ys tail ly htail hy
        show assembleRecords (r :: (rest ++ ys)) = .ok (lx ++ ly)
        rw [assembleRecords]
        simp only [hone, Bind.bind, Except.bind, ih]
        cases head with
        | none =>
          simp only [pure, Except.pure] at hx ⊢
          injection hx with hx
          subst hx
          rfl
        | some a0 =>
          simp only [pure, Except.pure] at hx ⊢
          injection hx with hx
          subst hx
          rfl

theorem attachStructure_preserves (m : String → Option (List PdbStructure))
    (a b : AnnotatedVariant) (h : attachStructure m a = .ok b) :
    b.variant = a.variant ∧ b.uniprotId = a.uniprotId ∧ b.aminoAcids = a.aminoAcids
    ∧ b.aminoAcidMutation = a.aminoAcidMutation ∧ b.icn3dPdb = a.icn3dPdb
    ∧ b.icn3dAlphafold = a.icn3dAlphafold ∧ b.siftPrediction = a.siftPrediction
    ∧ b.polyphenPrediction = a.polyphenPrediction
    ∧ (b.pdbId = a.pdbId ∨ ∃ x y, b.pdbId = some (String.intercalate "_" [x, y])) := by
  unfold attachStructure at h
  cases hm : m a.uniprotId with
  | none =>
    simp only [hm] at h
    injection h with h
    subst h
    exact ⟨rfl, rfl, rfl, rfl, rfl, rfl, rfl, rfl, Or.inl rfl⟩
  | some l =>
    cases l with
    | nil => simp only [hm] at h; exact Except.noConfusion h
    | cons s rest =>
      simp only [hm] at h
      injection h with h
      subst h
      exact ⟨rfl, rfl, rfl, rfl, rfl, rfl, rfl, rfl,
        Or.inr ⟨s.pdb_id, s.chain_id, rfl⟩⟩

theorem attachStructure_lookup (m : String → Option (List PdbStructure))
    (a b : AnnotatedVariant) (s : PdbStructure) (rest : List PdbStructure)
    (h : attachStructure m a = .ok b) (hm : m a.uniprotId = some (s :: rest)) :
    b.pdbId = some (String.intercalate "_" [s.pdb_id, s.chain_id])
    ∧ b.pdbStructures = some (s :: rest) := by
  unfold attachStructure at h
  simp only [hm] at h
  injection h with h
  subst h
  exact ⟨rfl, rfl⟩

theorem attachStructure_exists (m : String → Option (List PdbStructure))
    (a : AnnotatedVariant) (hm : ∀ k, m k ≠ some []) :
    ∃ b, attachStructure m a = .ok b := by
  unfold attachStructure
  cases hma : m a.uniprotId with
  | none => exact ⟨a, rfl⟩
  | some l =>
    cases l with
    | nil => exact absurd hma (hm a.uniprotId)
    | cons s rest => exact ⟨_, rfl⟩

theorem attachAll_mem (m : String → Option (List PdbStructure)) :
    ∀ (l l' : List AnnotatedVariant), attachAll m l = .ok l' →
      ∀ b ∈ l', ∃ a ∈ l, attachStructure m a = .ok b
  | [], l', h => by
    injection h with h
    subst h
    intro b hb
    simp at hb
  | a :: rest, l', h => by
    rw [attachAll] at h
    cases hone : attachStructure m a with
    | error e =>
      simp only [hone, Bind.bind, Except.bind] at h
      exact Except.noConfusion h
    | ok b0 =>
      simp only [hone, Bind.bind, Except.bind] at h
      cases hrest : attachAll m rest with
      | error e =>
        simp only [hrest] at h
        exact Except.noConfusion h
      | ok rest' =>
        simp only [hrest, pure, Except.pure] at h
        injection h with h
        subst h
        intro b hb
        rcases List.mem_cons.mp hb with hb | hb
        · subst hb
          exact ⟨a, by simp, hone⟩
        · obtain ⟨a', ha', h'⟩ := attachAll_mem m rest rest' hrest b hb
          exact ⟨a', by simp [ha'], h'⟩

theorem attachAll_map_uniprotId (m : String → Option (List PdbStructure)) :
    ∀ (l l' : List AnnotatedVariant), attachAll m l = .ok l' →
      l'.map (·.uniprotId) = l.map (·.uniprotId)
  | [], l', h => by
    injection h with h
    subst h
    rfl
  | a :: rest, l', h => by
    rw [attachAll] at h
    cases hone : attachStructure m a with
    | error e =>
      simp only [hone, Bind.bind, Except.bind] at h
      exact Except.noConfusion h
    | ok b0 =>
      simp only [hone, Bind.bind, Except.bind] at h
      cases hrest : attachAll m rest with
      | error e =>
        simp only [hrest] at h
        exact Except.noConfusion h
      | ok rest' =>
        simp only [hrest, pure, Except.pure] at h
        injection h with h
        subst h
        have hu : b0.uniprotId = a.uniprotId :=
          (attachStructure_preserves m a b0 hone).2.1
        simp [hu, attachAll_map_uniprotId m rest rest' hrest]

theorem attachAll_append (m : String → Option (List PdbStructure)) :
    ∀ (xs ys lx ly : List AnnotatedVariant),
      attachAll m xs = .ok lx → attachAll m ys = .ok ly →
      attachAll m (xs ++ ys) = .ok (lx ++ ly)
  | [], ys, lx, ly, hx, hy => by
    injection hx with hx
    subst hx
    simpa using hy
  | a :: rest, ys, lx, ly, hx, hy => by
    rw [attachAll] at hx
    cases hone : attachStructure m a with
    | error e =>
      simp only [hone, Bind.bind, Except.bind] at hx
      exact Except.noConfusion hx
    | ok b0 =>
      simp only [hone, Bind.bind, Except.bind] at hx
      cases hrest : attachAll m rest with
      | error e =>
        simp only [hrest] at hx
        exact Except.noConfusion hx
      | ok rest' =>
        simp only [hrest, pure, Except.pure] at hx
        injection hx with hx
        subst hx
        show attachAll m (a :: (rest ++ ys)) = _
        rw [attachAll]
        simp only [hone, Bind.bind, Except.bind,
          attachAll_append m rest ys rest' ly hrest hy, pure, Except.pure]
        rfl

theorem addCommands_preserves (date : JsDate) (a : AnnotatedVariant) :
    (addCommands date a).variant = a.variant
    ∧ (addCommands date a).uniprotId = a.uniprotId
    ∧ (addCommands date a).pdbId = a.pdbId
    ∧ (addCommands date a).pdbStructures = a.pdbStructures
    ∧ (addCommands date a).aminoAcids = a.aminoAcids
    ∧ (addCommands date a).aminoAcidMutation = a.aminoAcidMutation
    ∧ (addCommands date a).siftPrediction = a.siftPrediction
    ∧ (addCommands date a).polyphenPrediction = a.polyphenPrediction := by
  unfold addCommands
  by_cases hh : highImpact a = true
  · simp only [hh, if_true]
    by_cases hp : truthyOptStr a.pdbId = true
    · simp [hp]
    · simp [hp]
  · simp [hh]

theorem addCommands_highImpact (date : JsDate) (a : AnnotatedVariant) :
    highImpact (addCommands date a) = highImpact a := by
  have h := addCommands_preserves date a
  unfold highImpact
  rw [h.2.2.2.2.2.2.1, h.2.2.2.2.2.2.2]

theorem addCommands_not_high (date : JsDate) (a : AnnotatedVariant)
    (h : highImpact a = false) : addCommands date a = a := by
  unfold addCommands
  simp [h]

theorem addCommands_high_alphafold (date : JsDate) (a : AnnotatedVariant)
    (h : highImpact a = true) :
    ∃ u, (addCommands date a).icn3dAlphafold = some u ∧ u ≠ "" := by
  unfold addCommands
  simp only [h, if_true]
  split
  · exact ⟨_, rfl, getIcn3dAlphafoldUrl_ne_empty date _⟩
  · exact ⟨_, rfl, getIcn3dAlphafoldUrl_ne_empty date _⟩

theorem addCommands_high_pdb (date : JsDate) (a : AnnotatedVariant)
    (h : highImpact a = true) :
    (addCommands date a).icn3dPdb =
      if truthyOptStr a.pdbId then some (getIcn3dPdbUrl date a) else a.icn3dPdb := by
  unfold addCommands
  simp only [h, if_true]
  split
  · rename_i hp
    simp [hp]
  · rename_i hp
    simp [hp]

/-- C5: for every finite sequence and every size ≥ 1, concatenating the
batches produced by `chunk` in order reproduces the original sequence
exactly; every batch except possibly the last has length exactly `size`, and
every batch (in particular the last) has length between 1 and `size`. -/
theorem chunk_batches (size : Nat) (hsz : 1 ≤ size) (l : List α) :
    (chunk size l).flatten = l
    ∧ (∀ b ∈ (chunk size l).dropLast, b.length = size)
    ∧ (∀ b ∈ chunk size l, 1 ≤ b.length ∧ b.length ≤ size) :=
  ⟨chunkAux_flatten size hsz l.length l le_rfl,
   chunkAux_dropLast_length size hsz l.length l le_rfl,
   chunkAux_mem_length size hsz l.length l le_rfl⟩

/-- Witness for C5 at size 2 on [1, 2, 3, 4, 5]. -/
theorem chunk_batches_witness :
    1 ≤ 2
    ∧ ((chunk 2 [1, 2, 3, 4, 5]).flatten = [1, 2, 3, 4, 5]
      ∧ (∀ b ∈ (chunk 2 [1, 2, 3, 4, 5]).dropLast, b.length = 2)
      ∧ (∀ b ∈ chunk 2 [1, 2, 3, 4, 5], 1 ≤ b.length ∧ b.length ≤ 2)) :=
  ⟨by decide, chunk_batches 2 (by decide) [1, 2, 3, 4, 5]⟩

/-- C4: for every input, limit and filter, `readVcfFile` returns at most
`limit` variant records (the push inside the `getLines` callback is guarded
by `variants.length < limit`). -/
theorem readVcfFile_at_most_limit {V : Type} (parseLn : String → V)
    (linesFor : String → List String) (refNames : List String) (limit : Nat)
    (filter : Option String) :
    ((readVcfFile parseLn linesFor refNames limit filter).1).length ≤ limit :=
  readVcfGo_length_le parseLn linesFor limit filter refNames ([], []) (by simp)

/-- C3 counterexample: with two reference sequences, one matching line on the
first, and limit 1, the limit is already reached after the first reference
sequence, yet the reader still issues a `getLines` block-lookup call for the
second reference sequence — the `for` loop over `refNames` has no early
exit. -/
theorem readVcfFile_counterexample :
    ((readVcfFile (fun l => l) (fun r => if r = "r1" then ["line1"] else ["line2"])
        ["r1"] 1 none).1).length = 1
    ∧ (readVcfFile (fun l => l) (fun r => if r = "r1" then ["line1"] else ["line2"])
        ["r1", "r2"] 1 none).2 = ["r1", "r2"]
    ∧ (readVcfFile (fun l => l) (fun r => if r = "r1" then ["line1"] else ["line2"])
        ["r1", "r2"] 1 none).2 ≠ ["r1"] :=
  ⟨rfl, rfl, by decide⟩

/-- C3 amended: the reader issues exactly one `getLines` block-lookup call
per reference sequence of the index, in index order, regardless of whether
the accumulated output has already reached `limit`; the limit only guards
appending parsed records. -/
theorem readVcfFile_calls_every_ref {V : Type} (parseLn : String → V)
    (linesFor : String → List String) (refNames : List String) (limit : Nat)
    (filter : Option String) :
    (readVcfFile parseLn linesFor refNames limit filter).2 = refNames := by
  rw [readVcfFile, readVcfGo_trace]
  simp

/-- Witness for C4 on a two-reference input with limit 1. -/
theorem readVcfFile_at_most_limit_witness :
    ((readVcfFile (fun l => l) (fun r => if r = "r1" then ["line1"] else ["line2"])
        ["r1", "r2"] 1 none).1).length ≤ 1 :=
  readVcfFile_at_most_limit (fun l => l)
    (fun r => if r = "r1" then ["line1"] else ["line2"]) ["r1", "r2"] 1 none

/-- Witness for C3 (amended) on a three-reference input with limit 0. -/
theorem readVcfFile_calls_every_ref_witness :
    (readVcfFile (fun l => l) (fun r => [r]) ["a", "b", "c"] 0 (some "x")).2
      = ["a", "b", "c"] :=
  readVcfFile_calls_every_ref (fun l => l) (fun r => [r]) ["a", "b", "c"] 0 (some "x")

/-- C10: the poll loop of `getProteinIds` returns exactly the first non-null
`results` field of the successive status polls, sleeping 1000 ms after each
unsuccessful poll (so a success at poll k returns after exactly 1000·k ms of
sleep); it returns as soon as such a poll appears; and on a trace of polls
whose `results` are all null — of any length — it has not returned: there is
no built-in timeout. -/
theorem getProteinIds_poll_spec (R : Type) (responses : List (Option R)) :
    (∀ (r : R) (t : Nat), pollLoop responses 0 = some (r, t) →
      ∃ k, responses.get? k = some (some r) ∧ (∀ j < k, responses.get? j = some none)
        ∧ t = 1000 * k)
    ∧ (∀ (k : Nat) (r : R), responses.get? k = some (some r) →
        (∀ j < k, responses.get? j = some none) → pollLoop responses 0 = some (r, 1000 * k))
    ∧ ((∀ x ∈ responses, x = none) → pollLoop responses 0 = none) := by
  refine ⟨?_, ?_, ?_⟩
  · intro r t h
    obtain ⟨k, hk, hbefore, ht⟩ := pollLoop_sound responses 0 r t h
    exact ⟨k, hk, hbefore, by omega⟩
  · intro k r hk hbefore
    have := pollLoop_complete responses 0 k r hk hbefore
    simpa using this
  · exact pollLoop_all_null responses 0

/-- Witness for C10 on the trace [null, null, 7] (returns 7 after two 1000 ms
sleeps) and on the all-null trace [null, null] (not yet returned). -/
theorem getProteinIds_poll_spec_witness :
    pollLoop ([none, none, some 7] : List (Option Nat)) 0 = some (7, 1000 * 2)
    ∧ pollLoop ([none, none] : List (Option Nat)) 0 = none :=
  ⟨(getProteinIds_poll_spec Nat [none, none, some 7]).2.1 2 7 (by decide)
      (by intro j hj; interval_cases j <;> decide),
   (getProteinIds_poll_spec Nat [none, none]).2.2 (by decide)⟩

/-- C9 counterexample: the formatter removes the FIRST occurrence of "chr"
anywhere in the reference-sequence name, not only a leading "chr" prefix: on
the name "Xchr1" the code produces "X1" where the claimed leading-prefix
strip would leave "Xchr1" unchanged. -/
theorem parseVariant_counterexample :
    parseVariant { CHROM := some "Xchr1", POS := 5, ID := none, REF := some "A",
                   ALT := some ["T"] } = "X1 5 . A T ."
    ∧ specQueryLine { CHROM := some "Xchr1", POS := 5, ID := none, REF := some "A",
                      ALT := some ["T"] } = "Xchr1 5 . A T ."
    ∧ parseVariant { CHROM := some "Xchr1", POS := 5, ID := none, REF := some "A",
                     ALT := some ["T"] }
        ≠ specQueryLine { CHROM := some "Xchr1", POS := 5, ID := none, REF := some "A",
                          ALT := some ["T"] } :=
  ⟨rfl, rfl, by decide⟩

/-- C9 amended: `parseVariant` produces the six-field space-separated string
`{chrom} {pos} {id_or_dot} {ref} {alt_csv} .` in which the FIRST occurrence
of "chr" in the (nonempty) reference-sequence name is removed — which strips
a leading "chr" prefix whenever the name starts with one — a missing
identifier becomes the literal ".", and alternate alleles are comma-joined;
in particular CHROM="chr1", POS=100, ID=null, REF="A", ALT=["T","G"] formats
to the literal string "1 100 . A T,G .". -/
theorem parseVariant_formats (c r : String) (p : Nat) (i : Option (List String))
    (alts : List String) (hc : c ≠ "") :
    parseVariant { CHROM := some c, POS := p, ID := i, REF := some r, ALT := some alts } =
      String.intercalate " "
        [replaceFirst "chr" c, toString p, (i.bind (fun l => l.get? 0)).getD ".", r,
         String.intercalate "," alts, "."]
    ∧ parseVariant { CHROM := some "chr1", POS := 100, ID := none, REF := some "A",
                     ALT := some ["T", "G"] } = "1 100 . A T,G ." := by
  constructor
  · simp [parseVariant, hc]
  · rfl

/-- C2 counterexample: the record assembled for variant B with an empty
structure mapping is high-impact (sift "deleterious") yet its icn3dPdb
command field is null — so "icn3dPdb is non-empty if and only if the record
is high-impact" fails in the right-to-left direction. -/
theorem pvc_commands_counterexample :
    highImpact ((pvcRecordsOf svcEmpty dateW [varB]).headD default) = true
    ∧ ((pvcRecordsOf svcEmpty dateW [varB]).headD default).icn3dPdb = none :=
  ⟨rfl, rfl⟩

/-- C2 amended: for every record produced by `processVariantConsequences`,
icn3dAlphafold is non-empty iff the record is high-impact (sift
"deleterious" or polyphen "probably_damaging"), while icn3dPdb is non-empty
iff the record is high-impact AND a structure was attached (pdbId set);
records that are not high-impact have both fields empty, and a set command
field is never the empty string. -/
theorem pvc_commands_iff (svc : List String → String → Option (List PdbStructure))
    (date : JsDate) (data : List VepResult) (recs : List AnnotatedVariant)
    (calls : List (List String))
    (h : processVariantConsequences svc date data = .ok (recs, calls))
    (a : AnnotatedVariant) (ha : a ∈ recs) :
    (a.icn3dAlphafold ≠ none ↔ highImpact a = true)
    ∧ (a.icn3dPdb ≠ none ↔ (highImpact a = true ∧ a.pdbId ≠ none))
    ∧ a.icn3dAlphafold ≠ some "" ∧ a.icn3dPdb ≠ some "" := by
  obtain ⟨results, attached, hres, hatt, hrecs, hcalls⟩ :=
    pvc_ok_elim svc date data recs calls h
  subst hrecs
  obtain ⟨b, hb, hab⟩ := List.mem_map.mp ha
  obtain ⟨c, hc, hcb⟩ := attachAll_mem _ results attached hatt b hb
  obtain ⟨r0, hr0, hone⟩ := assembleRecords_mem data results hres c hc
  obtain ⟨hcpdb, hcicnp, hcicna⟩ := assembleOne_some_fields r0 c hone
  obtain ⟨_, _, _, _, hbicnp, hbicna, _, _, hbpdb⟩ :=
    attachStructure_preserves _ c b hcb
  rw [hcicnp] at hbicnp
  rw [hcicna] at hbicna
  subst hab
  have hpdbeq : (addCommands date b).pdbId = b.pdbId := (addCommands_preserves date b).2.2.1
  cases hhigh : highImpact b with
  | false =>
    rw [addCommands_not_high date b hhigh]
    rw [hhigh] at *
    refine ⟨?_, ?_, ?_, ?_⟩
    · simp [hbicna]
    · simp [hbicnp]
    · simp [hbicna]
    · simp [hbicnp]
  | true =>
    obtain ⟨u, hu1, hu2⟩ := addCommands_high_alphafold date b hhigh
    have hpdbcmd := addCommands_high_pdb date b hhigh
    have hhigha : highImpact (addCommands date b) = true := by
      rw [addCommands_highImpact date b, hhigh]
    refine ⟨?_, ?_, ?_, ?_⟩
    · rw [hu1, hhigha]
      simp
    · rw [hpdbcmd, hpdbeq, hhigha]
      rcases hbpdb with hpd | ⟨x, y, hpd⟩
      · rw [hcpdb] at hpd
        rw [hpd]
        simp [truthyOptStr, hbicnp]
      · rw [hpd]
        have htru : truthyOptStr (some (String.intercalate "_" [x, y])) = true := by
          simp [truthyOptStr]
          exact joined_pdbId_ne_empty x y
        rw [htru]
        simp
    · rw [hu1]
      intro heq
      injection heq with heq
      exact hu2 heq
    · rw [hpdbcmd]
      rcases hbpdb with hpd | ⟨x, y, hpd⟩
      · rw [hcpdb] at hpd
        rw [hpd]
        simp [truthyOptStr, hbicnp]
      · rw [hpd]
        have htru : truthyOptStr (some (String.intercalate "_" [x, y])) = true := by
          simp [truthyOptStr]
          exact joined_pdbId_ne_empty x y
        rw [htru]
        simp only [if_true]
        intro heq
        injection heq with heq
        exact getIcn3dPdbUrl_ne_empty date b heq

/-- Witness for C2 on variant C with an empty structure mapping. -/
theorem pvc_commands_iff_witness :
    (((pvcRecordsOf svcEmpty dateW [varC]).headD default).icn3dAlphafold ≠ none
      ↔ highImpact ((pvcRecordsOf svcEmpty dateW [varC]).headD default) = true)
    ∧ (((pvcRecordsOf svcEmpty dateW [varC]).headD default).icn3dPdb ≠ none
      ↔ (highImpact ((pvcRecordsOf svcEmpty dateW [varC]).headD default) = true
        ∧ ((pvcRecordsOf svcEmpty dateW [varC]).headD default).pdbId ≠ none))
    ∧ ((pvcRecordsOf svcEmpty dateW [varC]).headD default).icn3dAlphafold ≠ some ""
    ∧ ((pvcRecordsOf svcEmpty dateW [varC]).headD default).icn3dPdb ≠ some "" :=
  pvc_commands_iff svcEmpty dateW [varC] (pvcRecordsOf svcEmpty dateW [varC])
    (pvcCallsOf svcEmpty dateW [varC]) rfl
    ((pvcRecordsOf svcEmpty dateW [varC]).headD default) (by decide)

/-- C6 counterexample: with two variants carrying the same accession, the
single best-structures call receives the accession list with the duplicate
retained — the collection passed is NOT deduplicated. -/
theorem pvc_single_call_counterexample :
    pvcCallsOf svcEmpty dateW [varC, varC2] = [["P12345", "P12345"]]
    ∧ ¬ (["P12345", "P12345"] : List String).Nodup :=
  ⟨rfl, by decide⟩

/-- C6 amended: in every run of `processVariantConsequences` the
best-structures service is called exactly once for the whole batch, and the
collection passed to it is the list of protein accessions of all assembled
records in order, with duplicates retained (not deduplicated). -/
theorem pvc_single_structure_call (svc : List String → String → Option (List PdbStructure))
    (date : JsDate) (data : List VepResult) (recs : List AnnotatedVariant)
    (calls : List (List String))
    (h : processVariantConsequences svc date data = .ok (recs, calls)) :
    calls = [recs.map (·.uniprotId)] := by
  obtain ⟨results, attached, hres, hatt, hrecs, hcalls⟩ :=
    pvc_ok_elim svc date data recs calls h
  subst hrecs
  rw [hcalls]
  have h1 : (attached.map (addCommands date)).map (·.uniprotId)
      = attached.map (·.uniprotId) := by
    rw [List.map_map]
    exact List.map_congr_left (fun b _ => (addCommands_preserves date b).2.1)
  rw [h1, attachAll_map_uniprotId _ results attached hatt]

/-- Witness for C6 on variant C with a one-candidate structure mapping. -/
theorem pvc_single_structure_call_witness :
    pvcCallsOf svcOne dateW [varC]
      = [(pvcRecordsOf svcOne dateW [varC]).map (·.uniprotId)] :=
  pvc_single_structure_call svcOne dateW [varC] (pvcRecordsOf svcOne dateW [varC])
    (pvcCallsOf svcOne dateW [varC]) rfl

/-- C7: for every record produced by `processVariantConsequences` whose
accession maps, under the service response for the issued accession list, to
a nonempty candidate list, the selected structure is always the candidate at
index 0 (even when candidates tie: the rest of the list is carried along
unranked), and the record's structure identifier is `{pdb_id}_{chain_id}`. -/
theorem pvc_selects_first_structure (svc : List String → String → Option (List PdbStructure))
    (date : JsDate) (data : List VepResult) (recs : List AnnotatedVariant)
    (calls : List (List String))
    (h : processVariantConsequences svc date data = .ok (recs, calls))
    (a : AnnotatedVariant) (ha : a ∈ recs) (s : PdbStructure) (rest : List PdbStructure)
    (hm : svc (recs.map (·.uniprotId)) a.uniprotId = some (s :: rest)) :
    a.pdbId = some (String.intercalate "_" [s.pdb_id, s.chain_id])
    ∧ a.pdbStructures = some (s :: rest) := by
  obtain ⟨results, attached, hres, hatt, hrecs, hcalls⟩ :=
    pvc_ok_elim svc date data recs calls h
  have hmapeq : recs.map (·.uniprotId) = results.map (·.uniprotId) := by
    rw [hrecs, List.map_map]
    have hcomp : List.map ((fun x => x.uniprotId) ∘ addCommands date) attached
        = List.map (fun x => x.uniprotId) attached :=
      List.map_congr_left (fun b _ => (addCommands_preserves date b).2.1)
    rw [hcomp]
    exact attachAll_map_uniprotId _ results attached hatt
  subst hrecs
  obtain ⟨b, hb, hab⟩ := List.mem_map.mp ha
  obtain ⟨c, hc, hcb⟩ := attachAll_mem _ results attached hatt b hb
  have hau : a.uniprotId = c.uniprotId := by
    rw [← hab, (addCommands_preserves date b).2.1,
      (attachStructure_preserves _ c b hcb).2.1]
  rw [hmapeq, hau] at hm
  obtain ⟨hbpdb, hbstr⟩ := attachStructure_lookup _ c b s rest hcb hm
  subst hab
  exact ⟨by rw [(addCommands_preserves date b).2.2.1, hbpdb],
    by rw [(addCommands_preserves date b).2.2.2.1, hbstr]⟩

/-- Witness for C7 on variant C with a two-candidate (tied) mapping: the
selected structure is the first candidate. -/
theorem pvc_selects_first_structure_witness :
    ((pvcRecordsOf svcTwo dateW [varC]).headD default).pdbId
      = some (String.intercalate "_" [cand0.pdb_id, cand0.chain_id])
    ∧ ((pvcRecordsOf svcTwo dateW [varC]).headD default).pdbStructures
      = some (cand0 :: [cand1]) :=
  pvc_selects_first_structure svcTwo dateW [varC] (pvcRecordsOf svcTwo dateW [varC])
    (pvcCallsOf svcTwo dateW [varC]) rfl
    ((pvcRecordsOf svcTwo dateW [varC]).headD default) (by decide) cand0 [cand1] rfl

/-- C8: a record whose selected transcript consequence has an
amino-acid-change string lacking the "/" separator never yields a
well-formed AnnotatedVariant — the record it produces has a one-element
`aminoAcids` (not the two parts a well-formed record requires) — and the
processing of every other record in the same call is unaffected: the batch
still succeeds and the surrounding records are exactly those the call would
produce without the malformed one.  Stated for a batch-insensitive
best-structures service whose candidate lists are never empty. -/
theorem pvc_no_slash (m : String → Option (List PdbStructure)) (date : JsDate)
    (xs ys : List VepResult) (r : VepResult) (c : TranscriptConsequence) (aa : String)
    (hfind : findEligible r = some c)
    (haa : c.amino_acids = some aa)
    (hns : jsSplit "/" aa = [aa])
    (hmwf : ∀ k, m k ≠ some [])
    (recsP callsP recsS callsS : _)
    (hP : processVariantConsequences (fun _ => m) date xs = .ok (recsP, callsP))
    (hS : processVariantConsequences (fun _ => m) date ys = .ok (recsS, callsS)) :
    ∃ recsM callsM b,
      processVariantConsequences (fun _ => m) date (xs ++ r :: ys) = .ok (recsM, callsM)
      ∧ recsM = recsP ++ b :: recsS
      ∧ b.variant = r.input
      ∧ b.aminoAcids = [aa]
      ∧ wellFormedAminoChange b = false := by
  obtain ⟨resP, attP, hresP, hattP0, hrecsP, _⟩ :=
    pvc_ok_elim _ date xs recsP callsP hP
  obtain ⟨resS, attS, hresS, hattS0, hrecsS, _⟩ :=
    pvc_ok_elim _ date ys recsS callsS hS
  have hattP : attachAll m resP = .ok attP := hattP0
  have hattS : attachAll m resS = .ok attS := hattS0
  have hone : assembleOne r = .ok (some
      { variant := r.input, geneId := c.gene_id,
        uniprotId := (jsSplit "." ((c.swissprot.getD []).headD "")).headD "",
        pdbId := none, aminoAcids := jsSplit "/" aa,
        aminoAcidMutation := String.intercalate ""
          [((jsSplit "/" aa).get? 0).getD "", toString c.protein_start,
           ((jsSplit "/" aa).get? 1).getD ""],
        aminoAcidMutationPosition := c.protein_start,
        siftPrediction := c.sift_prediction, siftScore := c.sift_score,
        polyphenPrediction := c.polyphen_prediction, polyphenScore := c.polyphen_score,
        icn3dPdb := none, icn3dAlphafold := none, pdbStructures := none,
        consequence := c }) := by
    unfold assembleOne
    simp only [hfind, haa]
  set bAsm : AnnotatedVariant :=
    { variant := r.input, geneId := c.gene_id,
      uniprotId := (jsSplit "." ((c.swissprot.getD []).headD "")).headD "",
      pdbId := none, aminoAcids := jsSplit "/" aa,
      aminoAcidMutation := String.intercalate ""
        [((jsSplit "/" aa).get? 0).getD "", toString c.protein_start,
         ((jsSplit "/" aa).get? 1).getD ""],
      aminoAcidMutationPosition := c.protein_start,
      siftPrediction := c.sift_prediction, siftScore := c.sift_score,
      polyphenPrediction := c.polyphen_prediction, polyphenScore := c.polyphen_score,
      icn3dPdb := none, icn3dAlphafold := none, pdbStructures := none,
      consequence := c } with hbAsm
  have hcons : assembleRecords (r :: ys) = .ok (bAsm :: resS) := by
    rw [assembleRecords]
    simp only [hone, hresS, Bind.bind, Except.bind, pure, Except.pure]
  have hasm : assembleRecords (xs ++ r :: ys) = .ok (resP ++ bAsm :: resS) :=
    assembleRecords_append xs (r :: ys) resP (bAsm :: resS) hresP hcons
  obtain ⟨bAtt, hbAtt⟩ := attachStructure_exists m bAsm hmwf
  have hattCons : attachAll m (bAsm :: resS) = .ok (bAtt :: attS) := by
    rw [attachAll]
    simp only [hbAtt, hattS, Bind.bind, Except.bind, pure, Except.pure]
  have hattAll : attachAll m (resP ++ bAsm :: resS) = .ok (attP ++ bAtt :: attS) :=
    attachAll_append m resP (bAsm :: resS) attP (bAtt :: attS) hattP hattCons
  refine ⟨(attP ++ bAtt :: attS).map (addCommands date),
    [(resP ++ bAsm :: resS).map (·.uniprotId)], addCommands date bAtt, ?_, ?_, ?_, ?_, ?_⟩
  · unfold processVariantConsequences
    simp only [hasm, Bind.bind, Except.bind, hattAll, pure, Except.pure]
  · rw [hrecsP, hrecsS]
    simp
  · rw [(addCommands_preserves date bAtt).1, (attachStructure_preserves m bAsm bAtt hbAtt).1]
  · rw [(addCommands_preserves date bAtt).2.2.2.2.1,
      (attachStructure_preserves m bAsm bAtt hbAtt).2.2.1]
    show jsSplit "/" aa = [aa]
    exact hns
  · have hlen : (addCommands date bAtt).aminoAcids = [aa] := by
      rw [(addCommands_preserves date bAtt).2.2.2.2.1,
        (attachStructure_preserves m bAsm bAtt hbAtt).2.2.1]
      show jsSplit "/" aa = [aa]
      exact hns
    rw [wellFormedAminoChange, hlen]
    rfl

/-- Witness for C8 on a one-variant batch whose only consequence has the
amino-acid string "AV". -/
theorem pvc_no_slash_witness :
    ∃ recsM callsM b,
      processVariantConsequences (fun _ => mapNone) dateW ([] ++ varNoSlash :: [])
        = .ok (recsM, callsM)
      ∧ recsM = [] ++ b :: []
      ∧ b.variant = varNoSlash.input
      ∧ b.aminoAcids = ["AV"]
      ∧ wellFormedAminoChange b = false :=
  pvc_no_slash mapNone dateW [] [] varNoSlash consNoSlash "AV" rfl rfl (by decide)
    (fun k => by simp [mapNone]) [] [[]] [] [[]] rfl rfl

/-- C1 counterexample: on the spec's three-variant scenario the assembler
returns TWO records, for B and for C — variant C's consequence has a truthy
sift prediction ("tolerated") and a nonempty swissprot list, so it passes
the eligibility test and is assembled (only its visualization commands stay
empty) — refuting "exactly one record and no record for C". -/
theorem pvc_scenario_counterexample :
    (pvcRecordsOf svcOne dateW [varA, varB, varC]).map (·.variant) = ["varB", "varC"]
    ∧ (pvcRecordsOf svcOne dateW [varA, varB, varC]).length ≠ 1 :=
  ⟨rfl, by decide⟩

/-- C1 amended: on the three-variant scenario batch (A without consequences,
B deleterious, C tolerated/benign) with P12345 present in the structure
mapping, the assembler returns exactly two records, for B then C; B's record
has aminoAcidMutation "A42V", a non-null icn3dAlphafold, a non-null icn3dPdb
and selected structure id "1abc_A"; A yields no record, and C's record has
both visualization command fields empty. -/
theorem pvc_scenario_amended :
    (pvcRecordsOf svcOne dateW [varA, varB, varC]).map (·.variant) = ["varB", "varC"]
    ∧ ((pvcRecordsOf svcOne dateW [varA, varB, varC]).headD default).aminoAcidMutation = "A42V"
    ∧ ((pvcRecordsOf svcOne dateW [varA, varB, varC]).headD default).icn3dAlphafold ≠ none
    ∧ ((pvcRecordsOf svcOne dateW [varA, varB, varC]).headD default).icn3dPdb ≠ none
    ∧ ((pvcRecordsOf svcOne dateW [varA, varB, varC]).headD default).pdbId = some "1abc_A"
    ∧ ((pvcRecordsOf svcOne dateW [varA, varB, varC]).getD 1 default).icn3dAlphafold = none
    ∧ ((pvcRecordsOf svcOne dateW [varA, varB, varC]).getD 1 default).icn3dPdb = none :=
  ⟨rfl, rfl, by decide, by decide, rfl, rfl, rfl⟩

/-- Witness for C9 at CHROM="chr2", POS=7, ID=["rs42"], REF="G", ALT=["C"]. -/
theorem parseVariant_formats_witness :
    parseVariant { CHROM := some "chr2", POS := 7, ID := some ["rs42"], REF := some "G",
                   ALT := some ["C"] } =
      String.intercalate " "
        [replaceFirst "chr" "chr2", toString 7,
         ((some ["rs42"] : Option (List String)).bind (fun l => l.get? 0)).getD ".", "G",
         String.intercalate "," ["C"], "."]
    ∧ parseVariant { CHROM := some "chr1", POS := 100, ID := none, REF := some "A",
                     ALT := some ["T", "G"] } = "1 100 . A T,G ." :=
  parseVariant_formats "chr2" "G" 7 (some ["rs42"]) ["C"] (by decide)

end VizSNP
